import Mathlib

/-!
Verification of the OpenSearch TED ingestion scripts.

Shallow embedding of the four Python scripts:
`index_ted_packages.py` (archive extraction, XML normalization, bulk loading,
worker-pool counters and batching), `batch_download_index.py` (calendar
resolver, download orchestrator, completion ledger, per-year statistics) and
`download_ted_packages.py` (download-URL construction).

External effects are made explicit parameters: the behaviour of the archive
libraries is a pair of Booleans (whether `zipfile` / `tarfile` parse the file),
HTTP transports are functions into an outcome type, and the calendar fetch is
an `Option` (with `none` standing for `requests` raising, which
`download_csv` catches and converts to `None`).  Concurrency is modelled by
quantifying over the completion order of worker results: every list of
per-file outcomes stands for one possible schedule.
-/

namespace Ted

/-! ### Character-level models of the Python string operations used -/

/-- Python `str.endswith`, modelled on the character sequence. -/
def strEndsWith (s suffix : String) : Bool := suffix.data.isSuffixOf s.data

/-- Python `str.strip()`: drop whitespace from both ends. -/
def strTrim (s : String) : String :=
  ⟨((s.data.dropWhile Char.isWhitespace).reverse.dropWhile Char.isWhitespace).reverse⟩

/-- Decimal digits of `n`, most significant first; fuel-based so that it is
kernel-reducible.  `decDigitsAux (n+1) n` always has enough fuel because the
argument strictly shrinks under division by 10. -/
def decDigitsAux : Nat → Nat → List Char
  | 0, _ => []
  | fuel + 1, n =>
    if n < 10 then [Nat.digitChar n]
    else decDigitsAux fuel (n / 10) ++ [Nat.digitChar (n % 10)]

/-- Python `str(n)` for a natural number. -/
def decString (n : Nat) : String := ⟨decDigitsAux (n + 1) n⟩

/-! ### Download URL construction (`download_ted_packages.py`,
`batch_download_index.download_and_index_ojs`) -/

/-- Python `f"{n:03d}"`: zero-pad the decimal rendering to at least 3 digits. -/
def zpad3 (n : Nat) : String :=
  let ds := decDigitsAux (n + 1) n
  ⟨List.replicate (3 - ds.length) '0' ++ ds⟩

/-- The source's `ojs_formatted = f"00{ojs_int:03d}"`. -/
def formattedId (n : Nat) : String := "00" ++ zpad3 n

/-- `construct_download_url` from `download_ted_packages.py` (the same string
is built inline in `batch_download_index.download_and_index_ojs`). -/
def construct_download_url (ojs year : Nat) : String :=
  "https://ted.europa.eu/packages/daily/" ++ decString year ++ formattedId ojs

/-! ### Archive extractor (`index_ted_packages.extract_package`) -/

/-- The two container formats the extractor recognises. -/
inductive ArchiveFormat where
  | zip
  | targz
deriving DecidableEq, Repr

/-- The library exceptions `extract_package` catches. -/
inductive ExtractErr where
  | badZip
  | badTar
deriving DecidableEq, Repr

/-- `zipfile.ZipFile(...).extractall`: succeeds iff the zip library parses the
file (`zipOk`), otherwise raises `BadZipFile`. -/
def tryZip (zipOk : Bool) : Except ExtractErr ArchiveFormat :=
  if zipOk then .ok .zip else .error .badZip

/-- `tarfile.open(..., "r:gz").extractall`: succeeds iff the tar library
parses the file (`tarOk`), otherwise raises `ReadError`. -/
def tryTarGz (tarOk : Bool) : Except ExtractErr ArchiveFormat :=
  if tarOk then .ok .targz else .error .badTar

/-- `extract_package`: trust a `.zip` suffix, then a `.tar.gz`/`.tgz` suffix;
with no recognised suffix try tar.gz first and fall back to zip when the tar
attempt raises `ReadError`. -/
def extract_package (name : String) (zipOk tarOk : Bool) : Except ExtractErr ArchiveFormat :=
  if strEndsWith name ".zip" then tryZip zipOk
  else if strEndsWith name ".tar.gz" || strEndsWith name ".tgz" then tryTarGz tarOk
  else
    match tryTarGz tarOk with
    | .ok f => .ok f
    | .error _ => tryZip zipOk

/-- The Boolean the Python function returns: `True` on success, `False` when
one of the caught exceptions escapes the attempts. -/
def extract_ok (name : String) (zipOk tarOk : Bool) : Bool :=
  match extract_package name zipOk tarOk with
  | .ok _ => true
  | .error _ => false

/-! ### Document normalizer (`index_ted_packages.xml_to_dict` /
`element_to_dict`) -/

/-- Values of the converted document: strings (attribute values and trimmed
text), nested sub-documents, and lists produced by repeated tags. -/
inductive XValue where
  | str : String → XValue
  | obj : List (String × XValue) → XValue
  | arr : List XValue → XValue

/-- An XML element after namespace stripping: tag, attributes in document
order, optional text, children in document order. -/
inductive XElem where
  | mk (tag : String) (attrs : List (String × String)) (text : Option String)
      (children : List XElem)

/-- Tag of an element. -/
def XElem.tagOf : XElem → String
  | .mk t _ _ _ => t

/-- Python `dict.__setitem__` on an insertion-ordered map: replace in place if
the key exists, else append. -/
def assocSet (r : List (String × XValue)) (k : String) (v : XValue) : List (String × XValue) :=
  match r with
  | [] => [(k, v)]
  | (k', v') :: rest => if k' = k then (k', v) :: rest else (k', v') :: assocSet rest k v

/-- Python `dict.__getitem__` / `in` on the same map. -/
def assocGet (r : List (String × XValue)) (k : String) : Option XValue :=
  match r with
  | [] => none
  | (k', v') :: rest => if k' = k then some v' else assocGet rest k

/-- The child-merging step of `element_to_dict`: if the tag is present and not
yet a list, promote the existing value to a list and append the child; if it
is already a list, append; otherwise insert the child's sub-document. -/
def addChild (r : List (String × XValue)) (tag : String) (cd : List (String × XValue)) :
    List (String × XValue) :=
  match assocGet r tag with
  | some (XValue.arr vs) => assocSet r tag (XValue.arr (vs ++ [XValue.obj cd]))
  | some v => assocSet r tag (XValue.arr [v, XValue.obj cd])
  | none => assocSet r tag (XValue.obj cd)

mutual

/-- `element_to_dict`: attributes first (`result.update(element.attrib)`), then
the trimmed text under the reserved key `"text"` when non-empty, then the
children merged in document order. -/
def element_to_dict : XElem → List (String × XValue)
  | .mk _tag attrs text children =>
    let r0 := attrs.foldl (fun r kv => assocSet r kv.1 (XValue.str kv.2)) []
    let r1 := match text with
      | some t => if strTrim t = "" then r0 else assocSet r0 "text" (XValue.str (strTrim t))
      | none => r0
    addChildren r1 children

/-- The `for child in element` loop of `element_to_dict`. -/
def addChildren (r : List (String × XValue)) : List XElem → List (String × XValue)
  | [] => r
  | c :: cs => addChildren (addChild r c.tagOf (element_to_dict c)) cs

end

/-! ### Bulk loader (`index_ted_packages.bulk_index`) -/

/-- One entry of the `items` array of a bulk response; `err` records whether
the entry carries an `error` field. -/
structure BulkItemRes where
  err : Bool
deriving DecidableEq, Repr

/-- The parsed bulk response: the top-level `errors` Boolean and the `items`
array. -/
structure BulkResponse where
  errors : Bool
  items : List BulkItemRes
deriving DecidableEq, Repr

/-- Outcome of one HTTP POST: a status code with a parsed JSON body, or a
raised exception. -/
inductive HttpOutcome where
  | resp (status : Nat) (body : BulkResponse)
  | exn

/-- `json.dumps` of a plain string (no escaping arises for index names and
file-stem ids). -/
def jsonQuote (s : String) : String := "\"" ++ s ++ "\""

/-- The action line `json.dumps({"index": {"_index": ..., "_id": ...}})`. -/
def actionLine (indexName docId : String) : String :=
  "\x7b\"index\": \x7b\"_index\": " ++ jsonQuote indexName ++ ", \"_id\": "
    ++ jsonQuote docId ++ "\x7d\x7d"

/-- The newline-delimited request body: an action line then the serialized
source for each document, joined by newlines, with a trailing newline.  A
document is carried as `(id, serialized source)`. -/
def bulkBody (indexName : String) (docs : List (String × String)) : String :=
  String.intercalate "\n"
    (docs.foldr (fun d acc => actionLine indexName d.1 :: d.2 :: acc) []) ++ "\n"

/-- `bulk_index`.  Returns the response the caller sees together with the
number of HTTP requests performed.  An empty batch short-circuits before any
request; a non-2xx status or a raised exception is converted to
`errors := true` with no items. -/
def bulk_index (indexName : String) (docs : List (String × String))
    (transport : String → HttpOutcome) : BulkResponse × Nat :=
  if docs.isEmpty then ({ errors := false, items := [] }, 0)
  else
    match transport (bulkBody indexName docs) with
    | .resp status respBody =>
      if 200 ≤ status ∧ status < 300 then (respBody, 1)
      else ({ errors := true, items := [] }, 1)
    | .exn => ({ errors := true, items := [] }, 1)

/-! ### Ingestion worker pool (`index_ted_packages.index_xml_files`)

The per-file normalization outcomes are given as a list of `Option α` in
completion order (each list stands for one schedule of the thread pool);
`some` is a successfully normalized document, `none` a file whose
normalization failed. -/

/-- The loop state of `index_xml_files`: the accumulation buffer
(`processed_docs`), the two counters, and the full batches handed to
`bulk_index` so far. -/
structure IngestState (α : Type) where
  buffer : List α
  success : Nat
  errors : Nat
  batches : List (List α)
deriving Repr

/-- The `if len(processed_docs) >= bulk_size` check run after every completed
future: hand the buffer to `bulk_index` and reset it. -/
def checkFlush (B : Nat) (st : IngestState α) : IngestState α :=
  if B ≤ st.buffer.length then { st with batches := st.batches ++ [st.buffer], buffer := [] }
  else st

/-- Handling of one completed future: append the document and bump
`success_count`, or bump `error_count`; then the flush check. -/
def ingestStep (B : Nat) (st : IngestState α) (r : Option α) : IngestState α :=
  checkFlush B (match r with
    | some d => { st with buffer := st.buffer ++ [d], success := st.success + 1 }
    | none => { st with errors := st.errors + 1 })

/-- The whole `as_completed` loop of `index_xml_files`. -/
def ingestRun (B : Nat) (rs : List (Option α)) : IngestState α :=
  rs.foldl (ingestStep B) ⟨[], 0, 0, []⟩

/-- All batches handed to `bulk_index`, including the final
`if processed_docs: bulk_index(...)` flush of a non-empty remainder. -/
def submittedBatches (B : Nat) (rs : List (Option α)) : List (List α) :=
  let st := ingestRun B rs
  if st.buffer.isEmpty then st.batches else st.batches ++ [st.buffer]

/-- Spec-side definition, following the spec's words for comparison with the
code (the source derives no counter from bulk responses): the number of
documents of one batch counted as failed, "a document inside a batch reported
as errors:true without per-item detail is conservatively counted as failed";
with per-item detail, the items carrying an error. -/
def specFailedOfBatch (b : List α) (r : BulkResponse) : Nat :=
  if r.errors && r.items.isEmpty then b.length
  else (r.items.filter (fun it => it.err)).length

/-- Spec-side definition: the failed count "derived from per-document bulk
outcomes" summed over all submitted batches, given the bulk endpoint's
response to each batch. -/
def specDerivedFailed (batches : List (List α)) (resp : List α → BulkResponse) : Nat :=
  (batches.map (fun b => specFailedOfBatch b (resp b))).sum

/-! ### Publication calendar resolver (`batch_download_index.download_csv`,
`parse_csv`, `get_available_ojs_for_year`)

Dates are represented by naturals (any linearly ordered stamp); the
`datetime.strptime` parse is a parameter `parseDate` returning `none` exactly
on the rows whose date string it cannot parse. -/

/-- One iteration of the `for row in csv_reader` loop: rows with fewer than
two cells are skipped, both cells are stripped, and a row whose date does not
parse is dropped with a warning. -/
def rowParse (parseDate : String → Option Nat) (row : List String) : Option (String × Nat) :=
  match row with
  | ojs :: dateStr :: _ =>
    match parseDate (strTrim dateStr) with
    | some d => some (strTrim ojs, d)
    | none => none
  | _ => none

/-- `parse_csv`: skip the header row, then keep the rows that parse. -/
def parse_csv (parseDate : String → Option Nat) (rows : List (List String)) :
    List (String × Nat) :=
  match rows with
  | [] => []
  | _header :: rest => rest.filterMap (rowParse parseDate)

/-- `get_available_ojs_for_year`.  `fetched` is the result of `download_csv`
(already split into CSV rows): `none` when the download raised and the
function returned `None`.  Filter to `date <= today`, then sort ascending by
date (`sorted` with the date as key). -/
def get_available_ojs_for_year (parseDate : String → Option Nat)
    (fetched : Option (List (List String))) (now : Nat) : List (String × Nat) :=
  match fetched with
  | none => []
  | some rows =>
    let publications := parse_csv parseDate rows
    let available := publications.filter (fun p => decide (p.2 ≤ now))
    available.mergeSort (fun a b => decide (a.2 ≤ b.2))

/-! ### Download orchestrator (`batch_download_index.download_and_index_ojs`,
`process_single_year`, `process_year_range`) -/

/-- The environment one publication's download-and-index task runs against:
whether the package download succeeds, whether extraction succeeds, the
normalization outcome of each XML file found (empty list = no XML files), and
the bulk endpoint's response to each batch. -/
structure PubEnv where
  downloadOk : Bool
  extractOk : Bool
  normResults : List (Option Nat)
  resp : List Nat → BulkResponse

/-- `process_package` of `index_ted_packages.py` (which decides the
subprocess's exit status): `True` iff extraction succeeded and at least one
XML file was found.  `index_xml_files` is run but its counters and the bulk
responses do not influence the return value. -/
def process_package_success (e : PubEnv) : Bool :=
  e.extractOk && !e.normResults.isEmpty

/-- `result["success"]` of `download_and_index_ojs`: the download succeeded
and `index_package` (the indexing subprocess) exited 0. -/
def download_and_index_success (e : PubEnv) : Bool :=
  e.downloadOk && process_package_success e

/-- The ledger token `f"{year}-{ojs}"`. -/
def pkgId (year : Nat) (ojs : String) : String := decString year ++ "-" ++ ojs

/-- Per-year statistics of `process_single_year` / `process_year_range`. -/
structure YearStats where
  total : Nat
  downloaded : Nat
  indexed : Nat
  failed : Nat
  skipped : Nat
deriving DecidableEq, Repr

/-- The accounting equations claimed for the statistics: every publication is
counted once as skipped, indexed or failed, and the downloaded and indexed
counters coincide. -/
def statsConsistent (s : YearStats) : Prop :=
  s.total = s.skipped + s.indexed + s.failed ∧ s.downloaded = s.indexed

/-- Componentwise combination `stats[key] += year_stats[key]`. -/
def addStats (a b : YearStats) : YearStats :=
  ⟨a.total + b.total, a.downloaded + b.downloaded, a.indexed + b.indexed,
    a.failed + b.failed, a.skipped + b.skipped⟩

/-- The task-building loop of `process_single_year`: count every publication
in `total`, count the skip-existing hits in `skipped`, and collect the rest as
download tasks.  Returns `(total, skipped, tasks)`. -/
def taskLoop (year : Nat) (processed : List String) (skipExisting : Bool) :
    List (String × Nat) → Nat × Nat × List (String × Nat)
  | [] => (0, 0, [])
  | p :: ps =>
    let rest := taskLoop year processed skipExisting ps
    if skipExisting && processed.contains (pkgId year p.1) then
      (rest.1 + 1, rest.2.1 + 1, rest.2.2)
    else
      (rest.1 + 1, rest.2.1, p :: rest.2.2)

/-- The results loop of `process_single_year`: on success bump `downloaded`
and `indexed` and append the token to the tracking file, otherwise bump
`failed`.  Returns `(downloaded, indexed, failed, ledger appends)`. -/
def resultLoop (year : Nat) (env : String → PubEnv) :
    List (String × Nat) → Nat × Nat × Nat × List String
  | [] => (0, 0, 0, [])
  | p :: ps =>
    let rest := resultLoop year env ps
    if download_and_index_success (env p.1) then
      (rest.1 + 1, rest.2.1 + 1, rest.2.2.1, pkgId year p.1 :: rest.2.2.2)
    else
      (rest.1, rest.2.1, rest.2.2.1 + 1, rest.2.2.2)

/-- `process_single_year`: early return with zero statistics when the resolver
found nothing, else the two loops.  Returns the year's statistics and the
tokens appended to the ledger, in order. -/
def process_single_year (year : Nat) (pubs : List (String × Nat)) (processed : List String)
    (skipExisting : Bool) (env : String → PubEnv) : YearStats × List String :=
  match pubs with
  | [] => (⟨0, 0, 0, 0, 0⟩, [])
  | _ :: _ =>
    let t := taskLoop year processed skipExisting pubs
    let r := resultLoop year env t.2.2
    (⟨t.1, r.1, r.2.1, r.2.2.1, t.2.1⟩, r.2.2.2)

/-- `process_year_range`: each year's statistics are computed from that year's
own calendar fetch and publication environments, and combined key by key
(`addStats` is commutative, so the nondeterministic `as_completed` order does
not affect the aggregate). -/
def process_year_range (years : List Nat) (parseDate : String → Option Nat)
    (fetchOf : Nat → Option (List (List String))) (now : Nat) (processed : List String)
    (skipExisting : Bool) (env : Nat → String → PubEnv) : YearStats :=
  (years.map (fun y =>
      (process_single_year y (get_available_ojs_for_year parseDate (fetchOf y) now)
        processed skipExisting (env y)).1)).foldl addStats ⟨0, 0, 0, 0, 0⟩

/-- Spec-side definition, following the spec's words for comparison with the
code: the `Completed` state — "all of the package's documents confirmed
indexed by the bulk outcomes" — requires the download and extraction to
succeed, at least one document, every file normalized, and every submitted
batch acknowledged without errors. -/
def fullyIndexedSpec (B : Nat) (e : PubEnv) : Bool :=
  e.downloadOk && e.extractOk && !e.normResults.isEmpty
    && e.normResults.all (fun r => r.isSome)
    && (submittedBatches B e.normResults).all (fun b => !(e.resp b).errors)

end Ted

namespace Ted

/-! ## Claim theorems -/

/-- Claim C9 (confirmed): calling the bulk loader with an empty batch returns
`errors := false` with an empty item list immediately and performs no HTTP
request at all (the request count is 0 and the transport is never applied), so
flushing a zero-document remainder never contacts the search engine. -/
theorem c9_empty_batch : ∀ (indexName : String) (transport : String → HttpOutcome),
    bulk_index indexName [] transport = ({ errors := false, items := [] }, 0) :=
  fun _ _ => rfl

/-- Claim C2 (corrected), counterexample: for the element
`<r foo="bar"><foo/></r>` the normalizer does not let the child overwrite the
attribute; it promotes the attribute value to a list and appends the child's
sub-document, so the field holds `[str "bar", obj []]` and not only the
child's converted sub-document `obj []`. -/
theorem c2_counterexample :
    element_to_dict (.mk "r" [("foo", "bar")] none [.mk "foo" [] none []])
      = [("foo", XValue.arr [XValue.str "bar", XValue.obj []])]
    ∧ element_to_dict (.mk "r" [("foo", "bar")] none [.mk "foo" [] none []])
        ≠ [("foo", XValue.obj [])] := by
  have e1 : element_to_dict (.mk "r" [("foo", "bar")] none [.mk "foo" [] none []])
      = [("foo", XValue.arr [XValue.str "bar", XValue.obj []])] := rfl
  refine ⟨e1, ?_⟩
  intro h
  rw [e1] at h
  simp at h

/-- Claim C2 (corrected), amended: when an element has an attribute and a
child element with the same name, the attribute's value is entered into the
field map first and the later same-named child does not overwrite it — the
attribute value is promoted to a list and the child's converted sub-document
is appended after it, so the field holds `[attribute value, child document]`. -/
theorem c2_amended (t nm v : String) (ca : List (String × String)) (ct : Option String)
    (cc : List XElem) :
    element_to_dict (.mk t [(nm, v)] none [.mk nm ca ct cc])
      = [(nm, XValue.arr [XValue.str v, XValue.obj (element_to_dict (.mk nm ca ct cc))])] := by
  simp [element_to_dict, addChildren, addChild, assocGet, assocSet, XElem.tagOf]

set_option maxRecDepth 10000 in
/-- Claim C6 (confirmed): for every numeric publication id `n ≤ 999` the
formatted id is exactly 5 characters, all decimal digits, beginning with the
literal `"00"` prefix; and publication 103 in year 2025 resolves to the path
segment `202500103`. -/
theorem c6_formatted_id (n : Nat) (h : n ≤ 999) :
    (formattedId n).length = 5
    ∧ (formattedId n).data.all Char.isDigit = true
    ∧ (formattedId n).data.take 2 = ['0', '0']
    ∧ construct_download_url 103 2025
        = "https://ted.europa.eu/packages/daily/202500103" := by
  have hall : ∀ m, m ≤ 999 → (formattedId m).length = 5
      ∧ (formattedId m).data.all Char.isDigit = true
      ∧ (formattedId m).data.take 2 = ['0', '0'] := by decide
  exact ⟨(hall n h).1, (hall n h).2.1, (hall n h).2.2, by decide⟩

/-- Witness for C6 at `n = 103`. -/
theorem c6_formatted_id_witness :
    103 ≤ 999
    ∧ ((formattedId 103).length = 5
        ∧ (formattedId 103).data.all Char.isDigit = true
        ∧ (formattedId 103).data.take 2 = ['0', '0']
        ∧ construct_download_url 103 2025
            = "https://ted.europa.eu/packages/daily/202500103") :=
  ⟨by decide, c6_formatted_id 103 (by decide)⟩

/-- Claim C7 (confirmed): extraction trusts a recognised suffix first (a
`.zip` suffix is extracted as zip, a `.tar.gz`/`.tgz` suffix as gzipped tar);
with no recognised suffix it attempts tar.gz first and then zip; and it
reports failure exactly when the recognised format's integrity check fails, or
— with no recognised suffix — when neither format parses. -/
theorem c7_format_detection (name : String) (zipOk tarOk : Bool) :
    (extract_ok name zipOk tarOk = false ↔
      (strEndsWith name ".zip" = true ∧ zipOk = false)
      ∨ (strEndsWith name ".zip" = false
          ∧ (strEndsWith name ".tar.gz" || strEndsWith name ".tgz") = true ∧ tarOk = false)
      ∨ (strEndsWith name ".zip" = false
          ∧ (strEndsWith name ".tar.gz" || strEndsWith name ".tgz") = false
          ∧ tarOk = false ∧ zipOk = false))
    ∧ (strEndsWith name ".zip" = true → extract_package name zipOk tarOk = tryZip zipOk)
    ∧ (strEndsWith name ".zip" = false →
        (strEndsWith name ".tar.gz" || strEndsWith name ".tgz") = true →
        extract_package name zipOk tarOk = tryTarGz tarOk)
    ∧ (strEndsWith name ".zip" = false →
        (strEndsWith name ".tar.gz" || strEndsWith name ".tgz") = false →
        extract_package name zipOk tarOk
          = if tarOk then Except.ok ArchiveFormat.targz else tryZip zipOk) := by
  cases hz : strEndsWith name ".zip"
    <;> cases ht : (strEndsWith name ".tar.gz" || strEndsWith name ".tgz")
    <;> cases zipOk <;> cases tarOk
    <;> simp [extract_ok, extract_package, tryZip, tryTarGz, hz, ht]

/-- Witness for C7 on a suffix-less name that only tar parses: the guess path
attempts tar.gz first and succeeds. -/
theorem c7_format_detection_witness :
    strEndsWith "data" ".zip" = false
    ∧ (strEndsWith "data" ".tar.gz" || strEndsWith "data" ".tgz") = false
    ∧ extract_package "data" false true
        = if true then Except.ok ArchiveFormat.targz else tryZip false :=
  ⟨by decide, by decide,
    (c7_format_detection "data" false true).2.2.2 (by decide) (by decide)⟩

end Ted

namespace Ted

/-- Claim C5 (confirmed): for every parsed calendar feed and every `now`, the
resolver's output contains no publication dated strictly after `now`, the
output is sorted in ascending date order, and a row whose date does not parse
is dropped without affecting the rest of the fetch. -/
theorem c5_resolver (parseDate : String → Option Nat)
    (fetched : Option (List (List String))) (now : Nat) :
    (∀ p ∈ get_available_ojs_for_year parseDate fetched now, p.2 ≤ now)
    ∧ List.Pairwise (fun a b : String × Nat => a.2 ≤ b.2)
        (get_available_ojs_for_year parseDate fetched now)
    ∧ (∀ hdr rows1 rows2 row, rowParse parseDate row = none →
        get_available_ojs_for_year parseDate (some (hdr :: (rows1 ++ row :: rows2))) now
          = get_available_ojs_for_year parseDate (some (hdr :: (rows1 ++ rows2))) now) := by
  refine ⟨?_, ?_, ?_⟩
  · intro p hp
    cases fetched with
    | none => simp [get_available_ojs_for_year] at hp
    | some rows =>
      simp only [get_available_ojs_for_year] at hp
      rw [List.mem_mergeSort] at hp
      exact of_decide_eq_true (List.mem_filter.mp hp).2
  · cases fetched with
    | none => simp [get_available_ojs_for_year]
    | some rows =>
      simp only [get_available_ojs_for_year]
      have hs := @List.sorted_mergeSort (String × Nat)
        (fun a b => decide (a.2 ≤ b.2))
        (fun a b c hab hbc =>
          decide_eq_true (Nat.le_trans (of_decide_eq_true hab) (of_decide_eq_true hbc)))
        (fun a b => by
          rcases Nat.le_total a.2 b.2 with h | h <;> simp [decide_eq_true h])
        ((parse_csv parseDate rows).filter (fun p => decide (p.2 ≤ now)))
      exact hs.imp (fun hab => of_decide_eq_true hab)
  · intro hdr rows1 rows2 row h
    simp [get_available_ojs_for_year, parse_csv, List.filterMap_append, List.filterMap_cons, h]

/-- Witness for C5: a row whose date fails to parse is dropped, leaving the
resolver's output unchanged. -/
theorem c5_resolver_witness :
    rowParse (fun _ => none) ["103", "bad"] = none
    ∧ get_available_ojs_for_year (fun _ => none)
          (some [["id", "date"], ["103", "bad"]]) 7
        = get_available_ojs_for_year (fun _ => none) (some [["id", "date"]]) 7 := by
  refine ⟨rfl, ?_⟩
  exact (c5_resolver (fun _ => none) none 7).2.2 ["id", "date"] [] [] ["103", "bad"] rfl

end Ted

namespace Ted

/-- The flush check never touches the success counter. -/
theorem checkFlush_success {α : Type} (B : Nat) (st : IngestState α) :
    (checkFlush B st).success = st.success := by
  simp only [checkFlush]
  split <;> rfl

/-- The flush check never touches the error counter. -/
theorem checkFlush_errors {α : Type} (B : Nat) (st : IngestState α) :
    (checkFlush B st).errors = st.errors := by
  simp only [checkFlush]
  split <;> rfl

/-- A completed future that failed normalization only bumps the error counter;
no flush can trigger because the buffer was already shorter than the bulk
size. -/
theorem ingestStep_none_eq {α : Type} (B : Nat) (st : IngestState α)
    (h : st.buffer.length < B) :
    ingestStep B st none = { st with errors := st.errors + 1 } := by
  simp only [ingestStep, checkFlush]
  rw [if_neg (by omega)]

/-- A successful normalization that fills the buffer exactly to the bulk size
flushes it as one batch. -/
theorem ingestStep_some_full {α : Type} (B : Nat) (st : IngestState α) (d : α)
    (h : st.buffer.length + 1 = B) :
    ingestStep B st (some d)
      = ⟨[], st.success + 1, st.errors, st.batches ++ [st.buffer ++ [d]]⟩ := by
  simp only [ingestStep, checkFlush, List.length_append, List.length_cons, List.length_nil]
  rw [if_pos (by omega)]

/-- A successful normalization below the bulk size only extends the buffer. -/
theorem ingestStep_some_partial {α : Type} (B : Nat) (st : IngestState α) (d : α)
    (h : st.buffer.length + 1 < B) :
    ingestStep B st (some d)
      = { st with buffer := st.buffer ++ [d], success := st.success + 1 } := by
  simp only [ingestStep, checkFlush, List.length_append, List.length_cons, List.length_nil]
  rw [if_neg (by omega)]

end Ted

namespace Ted

/-- Loop invariant of `index_xml_files`: the buffer stays below the bulk size,
every flushed batch has exactly the bulk size, and the flushed batches
followed by the buffer are exactly the successfully normalized documents in
completion order. -/
theorem ingest_invariant {α : Type} (B : Nat) (hB : 1 ≤ B) :
    ∀ (rs : List (Option α)) (st : IngestState α),
      st.buffer.length < B → (∀ b ∈ st.batches, b.length = B) →
      (rs.foldl (ingestStep B) st).buffer.length < B
      ∧ (∀ b ∈ (rs.foldl (ingestStep B) st).batches, b.length = B)
      ∧ (rs.foldl (ingestStep B) st).batches.flatten ++ (rs.foldl (ingestStep B) st).buffer
          = st.batches.flatten ++ st.buffer ++ rs.filterMap id := by
  intro rs
  induction rs with
  | nil =>
    intro st h1 h2
    exact ⟨h1, h2, by simp⟩
  | cons r rs ih =>
    intro st h1 h2
    cases r with
    | none =>
      rw [List.foldl_cons, ingestStep_none_eq B st h1]
      obtain ⟨g1, g2, g3⟩ := ih { st with errors := st.errors + 1 } h1 h2
      exact ⟨g1, g2, by simpa using g3⟩
    | some d =>
      by_cases hfull : st.buffer.length + 1 = B
      · rw [List.foldl_cons, ingestStep_some_full B st d hfull]
        obtain ⟨g1, g2, g3⟩ :=
          ih ⟨[], st.success + 1, st.errors, st.batches ++ [st.buffer ++ [d]]⟩
            (by simpa using hB)
            (by
              intro b hb
              rcases List.mem_append.mp hb with hb | hb
              · exact h2 b hb
              · simp only [List.mem_singleton] at hb
                subst hb
                simpa using hfull)
        refine ⟨g1, g2, ?_⟩
        rw [g3]
        simp [List.flatten_append, List.append_assoc]
      · rw [List.foldl_cons, ingestStep_some_partial B st d (by omega)]
        obtain ⟨g1, g2, g3⟩ :=
          ih { st with buffer := st.buffer ++ [d], success := st.success + 1 }
            (by simp only [List.length_append, List.length_cons, List.length_nil]; omega) h2
        refine ⟨g1, g2, ?_⟩
        rw [g3]
        simp [List.append_assoc]

end Ted

namespace Ted

/-- The two counters of `index_xml_files` track only normalization outcomes:
successes count the `some` results, errors the `none` results, whatever the
bulk size. -/
theorem ingest_counts {α : Type} (B : Nat) :
    ∀ (rs : List (Option α)) (st : IngestState α),
      (rs.foldl (ingestStep B) st).success = st.success + rs.countP (fun r => r.isSome)
      ∧ (rs.foldl (ingestStep B) st).errors = st.errors + rs.countP (fun r => r.isNone) := by
  intro rs
  induction rs with
  | nil => intro st; simp
  | cons r rs ih =>
    intro st
    have hstep : (ingestStep B st r).success = st.success + (if r.isSome then 1 else 0)
        ∧ (ingestStep B st r).errors = st.errors + (if r.isNone then 1 else 0) := by
      cases r with
      | none => simp only [ingestStep]; simp [checkFlush_success, checkFlush_errors]
      | some d => simp only [ingestStep]; simp [checkFlush_success, checkFlush_errors]
    obtain ⟨hs, he⟩ := ih (ingestStep B st r)
    rw [List.foldl_cons]
    constructor
    · rw [hs, hstep.1, List.countP_cons]
      cases r
      all_goals simp
      all_goals omega
    · rw [he, hstep.2, List.countP_cons]
      cases r
      all_goals simp
      all_goals omega

/-- Flattening a list of batches of one uniform size multiplies the count by
that size. -/
theorem flatten_uniform_length {α : Type} (B : Nat) :
    ∀ (L : List (List α)), (∀ b ∈ L, b.length = B) → L.flatten.length = L.length * B := by
  intro L
  induction L with
  | nil => intro _; simp
  | cons b L ih =>
    intro h
    have hb : b.length = B := h b (by simp)
    have hL : ∀ c ∈ L, c.length = B := fun c hc => h c (by simp [hc])
    simp only [List.flatten_cons, List.length_append, List.length_cons, ih hL, hb]
    ring

/-- Every option list splits its length into the counts of `some` and `none`
entries. -/
theorem filterMap_countP_length {α : Type} :
    ∀ rs : List (Option α),
      (rs.filterMap id).length = rs.countP (fun r => r.isSome)
      ∧ rs.countP (fun r => r.isSome) + rs.countP (fun r => r.isNone) = rs.length := by
  intro rs
  induction rs with
  | nil => simp
  | cons r rs ih =>
    obtain ⟨h1, h2⟩ := ih
    cases r <;> simp [List.countP_cons, List.filterMap_cons, h1] <;> omega

/-- Claim C4 (confirmed): for every completion order of `N` successfully
normalized documents (interleaved with failures) and every bulk size `B ≥ 1`,
the loop hands exactly `N / B` full batches of size exactly `B` to the bulk
loader, the end-of-stream buffer holds the remaining `N % B` documents (their
concatenation being exactly the normalized documents in order), and the final
flush submits that remainder exactly when it is non-empty. -/
theorem c4_batch_accumulation {α : Type} (B : Nat) (rs : List (Option α)) (hB : 1 ≤ B) :
    (ingestRun B rs).batches.length = (rs.filterMap id).length / B
    ∧ (∀ b ∈ (ingestRun B rs).batches, b.length = B)
    ∧ (ingestRun B rs).buffer.length = (rs.filterMap id).length % B
    ∧ (ingestRun B rs).batches.flatten ++ (ingestRun B rs).buffer = rs.filterMap id
    ∧ ((rs.filterMap id).length % B = 0 → submittedBatches B rs = (ingestRun B rs).batches)
    ∧ ((rs.filterMap id).length % B ≠ 0 →
        submittedBatches B rs = (ingestRun B rs).batches ++ [(ingestRun B rs).buffer]) := by
  obtain ⟨hlt, hall, hflat⟩ :=
    ingest_invariant B hB rs ⟨[], 0, 0, []⟩ (by simpa using hB) (by simp)
  have hrun : ingestRun B rs = rs.foldl (ingestStep B) ⟨[], 0, 0, []⟩ := rfl
  rw [← hrun] at hlt hall hflat
  have hflat' : (ingestRun B rs).batches.flatten ++ (ingestRun B rs).buffer
      = rs.filterMap id := by
    rw [hflat]; simp
  have hlen : (ingestRun B rs).batches.length * B + (ingestRun B rs).buffer.length
      = (rs.filterMap id).length := by
    have := congrArg List.length hflat'
    simpa [flatten_uniform_length B _ hall] using this
  have hdiv : (rs.filterMap id).length / B = (ingestRun B rs).batches.length := by
    rw [← hlen, Nat.mul_comm, Nat.mul_add_div (by omega), Nat.div_eq_of_lt hlt]
    omega
  have hmod : (rs.filterMap id).length % B = (ingestRun B rs).buffer.length := by
    rw [← hlen, Nat.mul_comm, Nat.mul_add_mod, Nat.mod_eq_of_lt hlt]
  refine ⟨hdiv.symm, hall, hmod.symm, hflat', ?_, ?_⟩
  · intro h0
    have : (ingestRun B rs).buffer = [] := by
      have := hmod.symm.trans h0
      exact List.length_eq_zero.mp this
    simp [submittedBatches, this]
  · intro h0
    have : (ingestRun B rs).buffer ≠ [] := by
      intro he
      apply h0
      rw [hmod, he]
      rfl
    simp only [submittedBatches]
    rw [if_neg (by simpa [List.isEmpty_iff] using this)]

/-- Witness for C4 at `B = 2` with three normalized documents and one
normalization failure interleaved. -/
theorem c4_batch_accumulation_witness :
    1 ≤ 2
    ∧ (ingestRun 2 [some 1, none, some 2, some (3 : Nat)]).batches.length
        = ([some 1, none, some 2, some (3 : Nat)].filterMap id).length / 2 :=
  ⟨by decide, (c4_batch_accumulation 2 [some 1, none, some 2, some 3] (by decide)).1⟩

/-- Claim C3 (corrected), amended: `success_count + error_count` equals the
number of files seen, `success_count` counts the files whose normalization
succeeded and `error_count` those whose normalization failed; the per-document
bulk outcomes are not consulted (the counters are computed without reference
to any bulk response). -/
theorem c3_counters_amended {α : Type} (B : Nat) (rs : List (Option α)) :
    (ingestRun B rs).success = rs.countP (fun r => r.isSome)
    ∧ (ingestRun B rs).errors = rs.countP (fun r => r.isNone)
    ∧ (ingestRun B rs).success + (ingestRun B rs).errors = rs.length := by
  obtain ⟨hs, he⟩ := ingest_counts B rs ⟨[], 0, 0, []⟩
  have hs' : (ingestRun B rs).success = rs.countP (fun r => r.isSome) := by simpa using hs
  have he' : (ingestRun B rs).errors = rs.countP (fun r => r.isNone) := by simpa using he
  refine ⟨hs', he', ?_⟩
  rw [hs', he']
  exact (filterMap_countP_length rs).2

/-- Claim C3 (corrected), counterexample: one file normalizes successfully and
its batch's bulk response reports `errors:true` with no per-item detail.  The
spec-derived failed count is 1, but the code's error counter stays 0 (and its
success counter is 1): the counters are not derived from the bulk outcomes. -/
theorem c3_counterexample :
    (ingestRun 1 [some (0 : Nat)]).errors = 0
    ∧ (ingestRun 1 [some (0 : Nat)]).success = 1
    ∧ specDerivedFailed (submittedBatches 1 [some (0 : Nat)])
        (fun _ => { errors := true, items := [] }) = 1
    ∧ (ingestRun 1 [some (0 : Nat)]).errors
        ≠ specDerivedFailed (submittedBatches 1 [some (0 : Nat)])
            (fun _ => { errors := true, items := [] }) := by
  refine ⟨rfl, rfl, rfl, by decide⟩

end Ted

namespace Ted

/-- Closed form of the task-building loop: the total counts every publication,
the skipped counter counts the skip-existing hits, and the tasks are the
remaining publications in order. -/
theorem taskLoop_spec (year : Nat) (processed : List String) (skipExisting : Bool) :
    ∀ ps : List (String × Nat),
      (taskLoop year processed skipExisting ps).1 = ps.length
      ∧ (taskLoop year processed skipExisting ps).2.1
            + (taskLoop year processed skipExisting ps).2.2.length = ps.length
      ∧ (taskLoop year processed skipExisting ps).2.2
          = ps.filter (fun p => !(skipExisting && processed.contains (pkgId year p.1))) := by
  intro ps
  induction ps with
  | nil => exact ⟨rfl, rfl, rfl⟩
  | cons p ps ih =>
    obtain ⟨h1, h2, h3⟩ := ih
    cases hc : (skipExisting && processed.contains (pkgId year p.1))
    case false =>
      have e : taskLoop year processed skipExisting (p :: ps)
          = ((taskLoop year processed skipExisting ps).1 + 1,
             (taskLoop year processed skipExisting ps).2.1,
             p :: (taskLoop year processed skipExisting ps).2.2) := by
        simp only [taskLoop]
        rw [hc]
        simp
      rw [e]
      refine ⟨by simp [h1], by simp; omega, ?_⟩
      have hcond : (!(skipExisting && processed.contains (pkgId year p.1))) = true := by
        rw [hc]
        rfl
      rw [List.filter_cons, if_pos hcond, h3]
    case true =>
      have e : taskLoop year processed skipExisting (p :: ps)
          = ((taskLoop year processed skipExisting ps).1 + 1,
             (taskLoop year processed skipExisting ps).2.1 + 1,
             (taskLoop year processed skipExisting ps).2.2) := by
        simp only [taskLoop]
        rw [hc]
        simp
      rw [e]
      refine ⟨by simp [h1], by simp; omega, ?_⟩
      have hcond : ¬((!(skipExisting && processed.contains (pkgId year p.1))) = true) := by
        rw [hc]
        simp
      rw [List.filter_cons, if_neg hcond, h3]

/-- Closed form of the results loop: `downloaded` and `indexed` both count the
successful tasks, `failed` counts the rest, and the ledger receives exactly
the tokens of the successful tasks, in order. -/
theorem resultLoop_spec (year : Nat) (env : String → PubEnv) :
    ∀ ts : List (String × Nat),
      (resultLoop year env ts).1 = (resultLoop year env ts).2.1
      ∧ (resultLoop year env ts).2.1
          = (ts.filter (fun p => download_and_index_success (env p.1))).length
      ∧ (resultLoop year env ts).2.1 + (resultLoop year env ts).2.2.1 = ts.length
      ∧ (resultLoop year env ts).2.2.2
          = (ts.filter (fun p => download_and_index_success (env p.1))).map
              (fun p => pkgId year p.1) := by
  intro ts
  induction ts with
  | nil => exact ⟨rfl, rfl, rfl, rfl⟩
  | cons p ts ih =>
    obtain ⟨h1, h2, h3, h4⟩ := ih
    cases hc : download_and_index_success (env p.1)
    case false =>
      have e : resultLoop year env (p :: ts)
          = ((resultLoop year env ts).1, (resultLoop year env ts).2.1,
             (resultLoop year env ts).2.2.1 + 1, (resultLoop year env ts).2.2.2) := by
        simp only [resultLoop]
        rw [hc]
        simp
      rw [e]
      refine ⟨by simp [h1], ?_, by simp; omega, ?_⟩
      · rw [List.filter_cons, if_neg (by rw [hc]; simp), h2]
      · rw [List.filter_cons, if_neg (by rw [hc]; simp), h4]
    case true =>
      have e : resultLoop year env (p :: ts)
          = ((resultLoop year env ts).1 + 1, (resultLoop year env ts).2.1 + 1,
             (resultLoop year env ts).2.2.1, pkgId year p.1 :: (resultLoop year env ts).2.2.2) := by
        simp only [resultLoop]
        rw [hc]
        simp
      rw [e]
      refine ⟨by simp [h1], ?_, by simp; omega, ?_⟩
      · rw [List.filter_cons, if_pos hc, List.length_cons, h2]
      · rw [List.filter_cons, if_pos hc, List.map_cons, h4]

/-- Claim C1 (corrected), amended: a ledger token is appended exactly for the
publications that were not skipped and whose download succeeded and whose
indexing subprocess exited 0 — the latter meaning only that extraction
succeeded and at least one XML file was found.  In particular no token is
appended on a download or extraction failure, but bulk-indexing outcomes play
no role in whether a token is written. -/
theorem c1_ledger_amended (year : Nat) (pubs : List (String × Nat)) (processed : List String)
    (skipExisting : Bool) (env : String → PubEnv) :
    (process_single_year year pubs processed skipExisting env).2
      = ((pubs.filter (fun p => !(skipExisting && processed.contains (pkgId year p.1)))).filter
          (fun p => download_and_index_success (env p.1))).map (fun p => pkgId year p.1) := by
  cases pubs with
  | nil => rfl
  | cons p ps =>
    simp only [process_single_year]
    rw [(taskLoop_spec year processed skipExisting (p :: ps)).2.2,
      (resultLoop_spec year env _).2.2.2]

/-- Claim C1 (corrected), counterexample: a publication whose download and
extraction succeed and whose single document's batch is answered with
`errors:true` still gets its token `"2025-103"` appended to the ledger,
although the spec-side `Completed` condition (all documents confirmed indexed
by the bulk outcomes) does not hold. -/
theorem c1_ledger_counterexample :
    (process_single_year 2025 [("103", 5)] [] false
        (fun _ => ⟨true, true, [some 0], fun _ => { errors := true, items := [] }⟩)).2
      = ["2025-103"]
    ∧ fullyIndexedSpec 1 ⟨true, true, [some 0], fun _ => { errors := true, items := [] }⟩
        = false :=
  ⟨rfl, rfl⟩

end Ted

namespace Ted

/-- Combining statistics preserves the accounting equations. -/
theorem statsConsistent_add {a b : YearStats}
    (ha : statsConsistent a) (hb : statsConsistent b) : statsConsistent (addStats a b) := by
  obtain ⟨ha1, ha2⟩ := ha
  obtain ⟨hb1, hb2⟩ := hb
  cases a
  cases b
  simp only [statsConsistent, addStats] at *
  omega

/-- Folding consistent statistics from a consistent start stays consistent. -/
theorem statsConsistent_foldl :
    ∀ (l : List YearStats) (acc : YearStats), statsConsistent acc →
      (∀ s ∈ l, statsConsistent s) → statsConsistent (l.foldl addStats acc) := by
  intro l
  induction l with
  | nil => intro acc hacc _; exact hacc
  | cons s l ih =>
    intro acc hacc hl
    exact ih (addStats acc s) (statsConsistent_add hacc (hl s (by simp)))
      (fun s' hs' => hl s' (by simp [hs']))

/-- Claim C10 (confirmed): every per-year statistics record satisfies
`total = skipped + indexed + failed` and `downloaded = indexed` (each
non-skipped publication is counted exactly once as indexed or failed), and the
aggregate over a year range satisfies the same equations. -/
theorem c10_stats_equations :
    (∀ (year : Nat) (pubs : List (String × Nat)) (processed : List String)
        (skipExisting : Bool) (env : String → PubEnv),
      statsConsistent (process_single_year year pubs processed skipExisting env).1)
    ∧ (∀ (years : List Nat) (parseDate : String → Option Nat)
        (fetchOf : Nat → Option (List (List String))) (now : Nat) (processed : List String)
        (skipExisting : Bool) (env : Nat → String → PubEnv),
      statsConsistent
        (process_year_range years parseDate fetchOf now processed skipExisting env)) := by
  have hyear : ∀ (year : Nat) (pubs : List (String × Nat)) (processed : List String)
      (skipExisting : Bool) (env : String → PubEnv),
      statsConsistent (process_single_year year pubs processed skipExisting env).1 := by
    intro year pubs processed skipExisting env
    cases pubs with
    | nil => exact ⟨rfl, rfl⟩
    | cons p ps =>
      obtain ⟨t1, t2, _⟩ := taskLoop_spec year processed skipExisting (p :: ps)
      obtain ⟨r1, _, r3, _⟩ :=
        resultLoop_spec year env (taskLoop year processed skipExisting (p :: ps)).2.2
      have e : (process_single_year year (p :: ps) processed skipExisting env).1
          = ⟨(taskLoop year processed skipExisting (p :: ps)).1,
             (resultLoop year env ((taskLoop year processed skipExisting (p :: ps)).2.2)).1,
             (resultLoop year env ((taskLoop year processed skipExisting (p :: ps)).2.2)).2.1,
             (resultLoop year env ((taskLoop year processed skipExisting (p :: ps)).2.2)).2.2.1,
             (taskLoop year processed skipExisting (p :: ps)).2.1⟩ := rfl
      rw [e]
      constructor
      · simp only
        omega
      · simp only
        exact r1
  constructor
  · exact hyear
  · intro years parseDate fetchOf now processed skipExisting env
    apply statsConsistent_foldl
    · exact ⟨rfl, rfl⟩
    · intro s hs
      obtain ⟨y, _, rfl⟩ := List.mem_map.mp hs
      exact hyear y _ processed skipExisting (env y)

end Ted

namespace Ted

/-- Adding empty statistics changes nothing. -/
theorem addStats_zero (a : YearStats) : addStats a ⟨0, 0, 0, 0, 0⟩ = a := by
  cases a
  simp [addStats]

/-- A year whose statistics are empty contributes nothing to the folded
aggregate, so it can be removed from the year list. -/
theorem range_fold_drop (g : Nat → YearStats) (y : Nat) (hy : g y = ⟨0, 0, 0, 0, 0⟩) :
    ∀ (years : List Nat) (acc : YearStats),
      (years.map g).foldl addStats acc = ((years.filter (fun z => z != y)).map g).foldl addStats acc := by
  intro years
  induction years with
  | nil => intro acc; rfl
  | cons z zs ih =>
    intro acc
    by_cases hz : z = y
    · subst hz
      rw [List.map_cons, List.foldl_cons, hy, addStats_zero, ih acc, List.filter_cons,
        if_neg (by simp)]
    · rw [List.map_cons, List.foldl_cons, ih (addStats acc (g z)), List.filter_cons,
        if_pos (by simp [hz]), List.map_cons, List.foldl_cons]

/-- Claim C8 (confirmed): a transport failure while fetching a year's calendar
makes the resolver return the empty list instead of raising, and that year
then contributes nothing to the range aggregate — processing the range equals
processing the remaining years alone, so one year's calendar-fetch failure
never aborts the others. -/
theorem c8_fetch_failure_isolated (parseDate : String → Option Nat)
    (fetchOf : Nat → Option (List (List String))) (now : Nat) (years : List Nat)
    (processed : List String) (skipExisting : Bool) (env : Nat → String → PubEnv)
    (y : Nat) (h : fetchOf y = none) :
    get_available_ojs_for_year parseDate (fetchOf y) now = []
    ∧ process_year_range years parseDate fetchOf now processed skipExisting env
        = process_year_range (years.filter (fun z => z != y)) parseDate fetchOf now processed
            skipExisting env := by
  constructor
  · rw [h]
    rfl
  · exact range_fold_drop _ y (by rw [h]; rfl) years ⟨0, 0, 0, 0, 0⟩

/-- Witness for C8: with every fetch failing, the range `[2024, 2025]` reduces
to the range without the failing year 2024. -/
theorem c8_fetch_failure_isolated_witness :
    ((fun _ : Nat => (none : Option (List (List String)))) 2024
        = (none : Option (List (List String))))
    ∧ (get_available_ojs_for_year (fun _ => none)
          ((fun _ : Nat => (none : Option (List (List String)))) 2024) 0 = []
      ∧ process_year_range [2024, 2025] (fun _ => none) (fun _ => none) 0 [] false
            (fun _ _ => ⟨true, true, [], fun _ => { errors := false, items := [] }⟩)
          = process_year_range ([2024, 2025].filter (fun z => z != 2024)) (fun _ => none)
            (fun _ => none) 0 [] false
            (fun _ _ => ⟨true, true, [], fun _ => { errors := false, items := [] }⟩)) :=
  ⟨rfl, c8_fetch_failure_isolated (fun _ => none) (fun _ => none) 0 [2024, 2025] [] false
    (fun _ _ => ⟨true, true, [], fun _ => { errors := false, items := [] }⟩) 2024 rfl⟩

end Ted
